import Mathlib

/-!
# Verification of the SERP tracker scoring and recommendation logic

Shallow embedding of the scoring/recommendation functions of the
`serp-tracker-web` dashboard: the rank-delta calculator, the blog score
estimator, the exposure-probability lookup, the recommendation classifier
and account selector, the weights-settings validation, the EC2 proxy
route, and the account-delete guard.  Numeric values are modelled with
`Int`/`Rat` (`Real` where the source takes a base-10 logarithm); nullable
values with `Option`; JavaScript `Array.prototype.sort` (stable, ordered
by the comparator) with `List.mergeSort`.
-/

namespace SerpTracker

/-- Device of a SERP capture: `'PC' | 'MO'` in the source. -/
inductive Device : Type
  | PC
  | MO
deriving DecidableEq, Repr

/-- One row of `serp_results` as the pages consume it: device, nullable
rank, signed rank change, exposure flag and capture timestamp (the
`captured_at` date, modelled as an integer so that the by-date sort in the
source is expressible). -/
structure SerpResult where
  device : Device
  rank : Option Int
  rank_change : Int
  is_exposed : Bool
  captured_at : Int
deriving DecidableEq, Repr

/-- An `accounts` row as used by the recommendation pages. -/
structure Account where
  id : Nat
  name : String
  blog_score : Int
deriving DecidableEq, Repr

/-- `calcChange` from `src/app/dashboard/keywords/page.tsx` (lines
262-265): the rank-change function used when storing a SERP result.
`if (prev === null || curr === null) return 0; return prev - curr`. -/
def calcChange (prev curr : Option Int) : Int :=
  match prev, curr with
  | some p, some c => p - c
  | none, _ => 0
  | _, none => 0

/-- C1: `calcChange` returns `prev - curr` when both ranks are non-null
and `0` when either is null; in particular `delta(5,3)=2`, `delta(3,5)=-2`,
`delta(null,3)=0`, `delta(5,null)=0`.  Being a total Lean function of its
two arguments it is pure and has no error conditions. -/
theorem calcChange_spec :
    (∀ p c : Int, calcChange (some p) (some c) = p - c) ∧
    (∀ c : Option Int, calcChange none c = 0) ∧
    (∀ p : Option Int, calcChange p none = 0) ∧
    calcChange (some 5) (some 3) = 2 ∧
    calcChange (some 3) (some 5) = -2 ∧
    calcChange none (some 3) = 0 ∧
    calcChange (some 5) none = 0 := by
  refine ⟨fun p c => rfl, fun c => ?_, fun p => ?_, rfl, rfl, rfl, rfl⟩
  · cases c <;> rfl
  · cases p <;> rfl

/-! ## Account tiers and exposure probability -/

/-- The `daily_publish_limits` settings blob consumed by the
recommendation pages. -/
structure DailyLimitsSettings where
  high_limit : Int
  medium_limit : Int
  low_limit : Int
  high_tier_threshold : Int
  medium_tier_threshold : Int
deriving DecidableEq, Repr

/-- Account tier: the strings `'high' | 'medium' | 'low'` of the source. -/
inductive Tier : Type
  | high
  | medium
  | low
deriving DecidableEq, Repr

/-- `getAccountTier` from the recommendation pages: `low` when no settings
record is loaded, else compare the score against the two thresholds. -/
def getAccountTier (score : Int) (settings : Option DailyLimitsSettings) : Tier :=
  match settings with
  | none => .low
  | some s =>
    if s.high_tier_threshold ≤ score then .high
    else if s.medium_tier_threshold ≤ score then .medium
    else .low

/-- `getExposureProb` from the recommendation pages: the fixed
competition × tier probability matrix, `0.3` for competitions outside the
table (`matrix[competition]?.[tier] || 0.3`). -/
def getExposureProb (accountScore : Int) (competition : String)
    (settings : Option DailyLimitsSettings) : ℚ :=
  let tier := getAccountTier accountScore settings
  if competition = "낮음" then
    match tier with | .high => 19/20 | .medium => 3/4 | .low => 1/2
  else if competition = "중간" then
    match tier with | .high => 4/5 | .medium => 11/20 | .low => 3/10
  else if competition = "높음" then
    match tier with | .high => 3/5 | .medium => 1/4 | .low => 1/10
  else if competition = "알 수 없음" then
    match tier with | .high => 7/10 | .medium => 9/20 | .low => 1/4
  else 3/10

/-- Written from the claim's words, for comparison with `getExposureProb`:
the tier of an account score given the two thresholds (high when
`score >= high_tier_threshold`, medium when `score >= medium_tier_threshold`,
else low). -/
def claimTier (score high_thr medium_thr : Int) : Tier :=
  if high_thr ≤ score then .high
  else if medium_thr ≤ score then .medium
  else .low

/-- Written from the claim's words: the 4×3 probability table, `none` for
competition values outside the table.  Rows: low (`낮음`) 0.95/0.75/0.50,
medium (`중간`) 0.80/0.55/0.30, high (`높음`) 0.60/0.25/0.10, unknown
(`알 수 없음`) 0.70/0.45/0.25, for high/medium/low account tier. -/
def claimProbMatrix (competition : String) (t : Tier) : Option ℚ :=
  if competition = "낮음" then
    some (match t with | .high => 95/100 | .medium => 75/100 | .low => 50/100)
  else if competition = "중간" then
    some (match t with | .high => 80/100 | .medium => 55/100 | .low => 30/100)
  else if competition = "높음" then
    some (match t with | .high => 60/100 | .medium => 25/100 | .low => 10/100)
  else if competition = "알 수 없음" then
    some (match t with | .high => 70/100 | .medium => 45/100 | .low => 25/100)
  else none

/-- C5: with a loaded settings record the exposure-probability estimator
returns exactly the fixed matrix entry `probability[competition][tier]`,
where the tier compares the account score against the two thresholds, and
falls back to `0.3` for any competition not in the table; same inputs
always give the same output. -/
theorem getExposureProb_spec :
    ∀ (score : Int) (comp : String) (s : DailyLimitsSettings),
      getExposureProb score comp (some s) =
        (claimProbMatrix comp
          (claimTier score s.high_tier_threshold s.medium_tier_threshold)).getD (3/10) ∧
      ((comp ≠ "낮음" ∧ comp ≠ "중간" ∧ comp ≠ "높음" ∧ comp ≠ "알 수 없음") →
        getExposureProb score comp (some s) = 3/10) ∧
      (∀ score' comp' s', score' = score → comp' = comp → s' = s →
        getExposureProb score' comp' (some s') = getExposureProb score comp (some s)) := by
  intro score comp s
  refine ⟨?_, ?_, ?_⟩
  · unfold getExposureProb
    have ht : getAccountTier score (some s) =
        claimTier score s.high_tier_threshold s.medium_tier_threshold := rfl
    rw [ht]
    rcases claimTier score s.high_tier_threshold s.medium_tier_threshold with _ | _ | _ <;>
      unfold claimProbMatrix <;> split_ifs <;> simp <;> norm_num
  · rintro ⟨h1, h2, h3, h4⟩
    unfold getExposureProb
    simp [h1, h2, h3, h4]
  · rintro score' comp' s' rfl rfl rfl
    rfl

/-- Witness for C5 at concrete inputs: score 72, competition `낮음`,
thresholds 70/40 give tier `high` and probability 0.95. -/
theorem getExposureProb_spec_witness :
    getExposureProb 72 "낮음" (some ⟨4, 3, 2, 70, 40⟩) =
      (claimProbMatrix "낮음" (claimTier 72 70 40)).getD (3/10) ∧
    getExposureProb 72 "경쟁없음" (some ⟨4, 3, 2, 70, 40⟩) = 3/10 := by
  refine ⟨(getExposureProb_spec 72 "낮음" ⟨4, 3, 2, 70, 40⟩).1, ?_⟩
  exact (getExposureProb_spec 72 "경쟁없음" ⟨4, 3, 2, 70, 40⟩).2.1
    (by refine ⟨?_, ?_, ?_, ?_⟩ <;> decide)

/-! ## Best-account selection -/

/-- Recommendation status: `'urgent' | 'recovery' | 'new'` in the source
(`new` is written `fresh` here because `new` is a keyword). -/
inductive RecStatus : Type
  | urgent
  | recovery
  | fresh
deriving DecidableEq, Repr

/-- The comparator `(a, b) => b.blog_score - a.blog_score` of the source,
as the boolean `le` relation of a descending-by-score sort. -/
def scoreDescLe (a b : Account) : Bool :=
  b.blog_score ≤ a.blog_score

/-- `accounts.sort((a, b) => b.blog_score - a.blog_score)`: JavaScript
`Array.prototype.sort` is a stable sort ordered by the comparator,
modelled as `List.mergeSort`. -/
def sortByScoreDesc (l : List Account) : List Account :=
  l.mergeSort scoreDescLe

/-- The head of the descending sort is a maximal-`blog_score` member of
the list. -/
theorem sortByScoreDesc_head_max (l : List Account) (b : Account)
    (hb : (sortByScoreDesc l).head? = some b) :
    b ∈ l ∧ ∀ a ∈ l, a.blog_score ≤ b.blog_score := by
  have hperm : List.Perm (l.mergeSort scoreDescLe) l := List.mergeSort_perm l scoreDescLe
  have hsorted : (l.mergeSort scoreDescLe).Pairwise (fun a b => scoreDescLe a b) :=
    List.sorted_mergeSort
      (fun a b c h1 h2 => by
        simp only [scoreDescLe, decide_eq_true_eq] at *; omega)
      (fun a b => by
        simp only [scoreDescLe, Bool.or_eq_true, decide_eq_true_eq]; omega)
      l
  unfold sortByScoreDesc at hb
  rcases hsort : l.mergeSort scoreDescLe with _ | ⟨x, t⟩
  · rw [hsort] at hb; simp at hb
  · rw [hsort] at hb
    simp only [List.head?_cons, Option.some.injEq] at hb
    rw [hsort] at hperm hsorted
    rw [← hb]
    constructor
    · exact hperm.mem_iff.mp (List.mem_cons_self _ _)
    · intro a ha
      have ha' : a ∈ x :: t := hperm.mem_iff.mpr ha
      rcases List.mem_cons.mp ha' with rfl | hat
      · exact le_refl _
      · have := (List.pairwise_cons.mp hsorted).1 a hat
        simpa [scoreDescLe] using this

/-- The competition → blog-score band table of `findBestAccount`
(`ranges[competition] || [0, 100]`). -/
def rangeFor (competition : String) : Int × Int :=
  if competition = "높음" then (60, 100)
  else if competition = "중간" then (35, 69)
  else if competition = "낮음" then (0, 34)
  else if competition = "알 수 없음" then (0, 100)
  else (0, 100)

/-- Membership of an account's score in the band for a competition. -/
def inBand (competition : String) (a : Account) : Prop :=
  (rangeFor competition).1 ≤ a.blog_score ∧ a.blog_score ≤ (rangeFor competition).2

instance (competition : String) (a : Account) : Decidable (inBand competition a) := by
  unfold inBand; infer_instance

/-- `findBestAccount` from `src/app/dashboard/recommendations/page.tsx`
(lines 78-103): keep the existing account for urgent/recovery, otherwise
take the top of the descending sort of the accounts whose score lies in
the competition band, falling back to the top of all accounts
(`[0] || null` gives `none` on an empty list). -/
def findBestAccount (competition : String) (originalAccount : Option Account)
    (allAccounts : List Account) (status : RecStatus) : Option Account :=
  if (status == .urgent || status == .recovery) && originalAccount.isSome then
    originalAccount
  else
    let r := rangeFor competition
    let candidates := allAccounts.filter
      (fun a => decide (r.1 ≤ a.blog_score ∧ a.blog_score ≤ r.2))
    if 0 < candidates.length then (sortByScoreDesc candidates).head?
    else (sortByScoreDesc allAccounts).head?

/-- `findBestAccount` from the content-centric recommendations page
(`src/unnamed/part_002`, lines 76-95): the same band selection without the
urgent/recovery shortcut (that variant's keywords carry no associated
account). -/
def findBestAccountV2 (competition : String) (allAccounts : List Account) :
    Option Account :=
  let r := rangeFor competition
  let candidates := allAccounts.filter
    (fun a => decide (r.1 ≤ a.blog_score ∧ a.blog_score ≤ r.2))
  if 0 < candidates.length then (sortByScoreDesc candidates).head?
  else (sortByScoreDesc allAccounts).head?

/-- The descending sort of a non-empty list has a head. -/
theorem sortByScoreDesc_head_of_ne_nil (l : List Account) (h : l ≠ []) :
    ∃ b, (sortByScoreDesc l).head? = some b := by
  have hperm : List.Perm (l.mergeSort scoreDescLe) l := List.mergeSort_perm l scoreDescLe
  rcases hs : sortByScoreDesc l with _ | ⟨x, t⟩
  · unfold sortByScoreDesc at hs
    rw [hs] at hperm
    exact absurd hperm.symm.eq_nil h
  · exact ⟨x, rfl⟩

/-- C4: account selection.  For urgent/recovery the existing associated
account is kept when present; otherwise the selected account is a
highest-`blog_score` account inside the competition band
(high `높음`:[60,100], medium `중간`:[35,69], low `낮음`:[0,34], unknown:[0,100]);
when no account lies in the band it is a highest-scoring account overall;
with no accounts at all it is `none`.  The content-centric variant is the
band selection itself, and the low-competition band is `[0, 34]`. -/
theorem findBestAccount_spec (comp : String) (orig : Option Account)
    (accs : List Account) (st : RecStatus) :
    ((st = .urgent ∨ st = .recovery) → orig.isSome →
      findBestAccount comp orig accs st = orig) ∧
    ((st = .fresh ∨ orig = none) →
      ((∃ a ∈ accs, inBand comp a) →
        ∃ b, findBestAccount comp orig accs st = some b ∧ b ∈ accs ∧ inBand comp b ∧
          ∀ a ∈ accs, inBand comp a → a.blog_score ≤ b.blog_score) ∧
      ((¬ ∃ a ∈ accs, inBand comp a) → accs ≠ [] →
        ∃ b, findBestAccount comp orig accs st = some b ∧ b ∈ accs ∧
          ∀ a ∈ accs, a.blog_score ≤ b.blog_score) ∧
      (accs = [] → findBestAccount comp orig accs st = none)) ∧
    rangeFor "낮음" = (0, 34) ∧
    (∀ accs', findBestAccountV2 comp accs' = findBestAccount comp none accs' .fresh) := by
  have hguard : ∀ (o : Option Account) (s : RecStatus), (s = .fresh ∨ o = none) →
      ((s == RecStatus.urgent || s == RecStatus.recovery) && o.isSome) = false := by
    rintro o s (rfl | rfl) <;> simp
  refine ⟨?_, ?_, rfl, ?_⟩
  · rintro h hsome
    unfold findBestAccount
    rcases h with rfl | rfl <;> simp [hsome]
  · intro h
    have hg := hguard orig st h
    unfold findBestAccount
    rw [hg]
    simp only [Bool.false_eq_true, if_false]
    set candidates := accs.filter
      (fun a => decide ((rangeFor comp).1 ≤ a.blog_score ∧ a.blog_score ≤ (rangeFor comp).2))
      with hcand
    refine ⟨?_, ?_, ?_⟩
    · rintro ⟨a, ha, hband⟩
      have hamem : a ∈ candidates := by
        rw [hcand]
        exact List.mem_filter.mpr ⟨ha, by simpa [inBand] using hband⟩
      have hlen : 0 < candidates.length := List.length_pos.mpr (by
        intro hnil; rw [hnil] at hamem; exact absurd hamem (List.not_mem_nil a))
      rw [if_pos hlen]
      obtain ⟨b, hhead⟩ := sortByScoreDesc_head_of_ne_nil candidates
        (by intro hnil; rw [hnil] at hlen; simp at hlen)
      obtain ⟨hbmem, hbmax⟩ := sortByScoreDesc_head_max candidates b hhead
      refine ⟨b, hhead, ?_, ?_, ?_⟩
      · exact (List.mem_filter.mp hbmem).1
      · have := (List.mem_filter.mp hbmem).2
        simpa [inBand] using this
      · intro x hx hxband
        exact hbmax x (List.mem_filter.mpr ⟨hx, by simpa [inBand] using hxband⟩)
    · intro hno hne
      have hcnil : candidates = [] := by
        rcases hc : candidates with _ | ⟨a, t⟩
        · rfl
        · exfalso
          have hamem : a ∈ candidates := by rw [hc]; exact List.mem_cons_self a t
          rw [hcand] at hamem
          have := List.mem_filter.mp hamem
          exact hno ⟨a, this.1, by simpa [inBand] using this.2⟩
      rw [hcnil]
      simp only [List.length_nil, lt_irrefl, if_false]
      obtain ⟨b, hhead⟩ := sortByScoreDesc_head_of_ne_nil accs hne
      obtain ⟨hbmem, hbmax⟩ := sortByScoreDesc_head_max accs b hhead
      exact ⟨b, hhead, hbmem, hbmax⟩
    · rintro rfl
      simp [hcand, sortByScoreDesc, List.mergeSort]
  · intro accs'
    unfold findBestAccountV2 findBestAccount
    simp

/-- Witness for C4 at concrete inputs: a new keyword with competition
`낮음` over two accounts (scores 20 and 80) selects an in-band maximal
account, and an urgent keyword keeps its existing account. -/
theorem findBestAccount_spec_witness :
    (∃ b, findBestAccount "낮음" none [⟨1, "a", 20⟩, ⟨2, "b", 80⟩] .fresh = some b ∧
        b ∈ [⟨1, "a", 20⟩, ⟨2, "b", 80⟩] ∧ inBand "낮음" b ∧
        ∀ a ∈ ([⟨1, "a", 20⟩, ⟨2, "b", 80⟩] : List Account),
          inBand "낮음" a → a.blog_score ≤ b.blog_score) ∧
    findBestAccount "낮음" (some ⟨3, "c", 50⟩) [⟨1, "a", 20⟩] .urgent =
      some ⟨3, "c", 50⟩ := by
  constructor
  · exact ((findBestAccount_spec "낮음" none [⟨1, "a", 20⟩, ⟨2, "b", 80⟩]
      .fresh).2.1 (Or.inl rfl)).1 ⟨⟨1, "a", 20⟩, by simp, by decide⟩
  · exact (findBestAccount_spec "낮음" (some ⟨3, "c", 50⟩) [⟨1, "a", 20⟩]
      .urgent).1 (Or.inl rfl) rfl

/-! ## Content-centric recommendation generation (`src/unnamed/part_002`) -/

/-- A `contents` row as the content-centric recommendations page consumes
it: active flag plus its SERP results. -/
structure ContentC where
  is_active : Bool
  serp_results : List SerpResult
deriving DecidableEq, Repr

/-- A keyword together with its grouped contents, the unit the
content-centric `generateRecommendations` iterates over. -/
structure KeywordC where
  id : Nat
  monthly_search_total : Int
  competition : String
  contents : List ContentC
deriving DecidableEq, Repr

/-- Whether a content item is exposed on either device:
`pcSerp?.is_exposed || moSerp?.is_exposed` over the first PC and first MO
SERP rows. -/
def contentExposed (c : ContentC) : Bool :=
  let pcSerp := c.serp_results.find? (fun s => s.device == Device.PC)
  let moSerp := c.serp_results.find? (fun s => s.device == Device.MO)
  ((pcSerp.map (·.is_exposed)).getD false) || ((moSerp.map (·.is_exposed)).getD false)

/-- The classification chain of the content-centric
`generateRecommendations` (lines 105-139 of `src/unnamed/part_002`):
urgent when there are active contents and none of them is exposed,
recovery when no active but some inactive contents remain, `fresh`
(`'new'`) when there are no contents at all, else no recommendation. -/
def classifyKeyword (kw : KeywordC) : Option RecStatus :=
  let activeContents := kw.contents.filter (·.is_active)
  let exposedContents := activeContents.filter contentExposed
  let inactiveContents := kw.contents.filter (fun c => !c.is_active)
  if 0 < activeContents.length ∧ exposedContents.length = 0 then some .urgent
  else if activeContents.length = 0 ∧ 0 < inactiveContents.length then some .recovery
  else if kw.contents.length = 0 then some .fresh
  else none

/-- A produced recommendation of the content-centric page. -/
structure RecommendationC where
  keyword : KeywordC
  status : RecStatus
  recommendedAccount : Option Account
  exposureProb : ℚ
deriving DecidableEq

/-- `generateRecommendations` from `src/unnamed/part_002` (lines 98-158):
classify every keyword, skip the unclassified ones, attach the best
account and its exposure probability, and sort by `monthly_search_total`
descending (`(a, b) => b.keyword.monthly_search_total - a.keyword.monthly_search_total`). -/
def generateRecommendationsV2 (kws : List KeywordC) (accs : List Account)
    (settings : Option DailyLimitsSettings) : List RecommendationC :=
  let recs := kws.filterMap (fun kw =>
    (classifyKeyword kw).map (fun st =>
      let recommendedAccount := findBestAccountV2 kw.competition accs
      { keyword := kw
        status := st
        recommendedAccount := recommendedAccount
        exposureProb :=
          match recommendedAccount with
          | some a => getExposureProb a.blog_score kw.competition settings
          | none => 3/10 }))
  recs.mergeSort (fun a b =>
    decide (b.keyword.monthly_search_total ≤ a.keyword.monthly_search_total))

/-- Every recommendation in the generator's output originates from an
input keyword that the classifier accepted. -/
theorem mem_generateRecommendationsV2 (kws : List KeywordC) (accs : List Account)
    (settings : Option DailyLimitsSettings) (r : RecommendationC)
    (hr : r ∈ generateRecommendationsV2 kws accs settings) :
    r.keyword ∈ kws ∧ classifyKeyword r.keyword = some r.status := by
  unfold generateRecommendationsV2 at hr
  have hr' := (List.mergeSort_perm _ _).mem_iff.mp hr
  obtain ⟨kw, hkw, hmap⟩ := List.mem_filterMap.mp hr'
  rcases hcl : classifyKeyword kw with _ | st
  · rw [hcl] at hmap; simp at hmap
  · rw [hcl] at hmap
    rw [Option.map_some'] at hmap
    have hmap' := Option.some.inj hmap
    subst hmap'
    exact ⟨hkw, hcl⟩

/-- A keyword having an active exposed content item is classified as
nothing. -/
theorem classifyKeyword_none_of_exposed (kw : KeywordC)
    (h : ∃ c ∈ kw.contents, c.is_active = true ∧ contentExposed c = true) :
    classifyKeyword kw = none := by
  obtain ⟨c, hc, hact, hexp⟩ := h
  unfold classifyKeyword
  have hcact : c ∈ kw.contents.filter (·.is_active) :=
    List.mem_filter.mpr ⟨hc, hact⟩
  have hcexp : c ∈ (kw.contents.filter (·.is_active)).filter contentExposed :=
    List.mem_filter.mpr ⟨hcact, hexp⟩
  have h1 : ((kw.contents.filter (·.is_active)).filter contentExposed).length ≠ 0 := by
    intro hlen
    rw [List.length_eq_zero] at hlen
    rw [hlen] at hcexp
    exact List.not_mem_nil c hcexp
  have h2 : ¬ (kw.contents.filter (·.is_active)).length = 0 := by
    intro hlen
    rw [List.length_eq_zero] at hlen
    rw [hlen] at hcact
    exact List.not_mem_nil c hcact
  have h3 : kw.contents.length ≠ 0 := by
    intro hlen
    rw [List.length_eq_zero] at hlen
    rw [hlen] at hc
    exact List.not_mem_nil c hc
  rw [if_neg (by tauto), if_neg (by tauto), if_neg h3]

/-- C3: the classification is exhaustive and exclusive.  `classifyKeyword`
is a total function into `Option RecStatus`, so every keyword gets exactly
one of urgent / recovery / new / none; the three accepted statuses are
characterised by the stated conditions, and a keyword with an active
content item exposed on some device never appears in the generator's
output. -/
theorem classifyKeyword_spec (kw : KeywordC) :
    (classifyKeyword kw = some .urgent ↔
      (∃ c ∈ kw.contents, c.is_active = true) ∧
      (∀ c ∈ kw.contents, c.is_active = true → contentExposed c = false)) ∧
    (classifyKeyword kw = some .recovery ↔
      (∀ c ∈ kw.contents, c.is_active = false) ∧ kw.contents ≠ []) ∧
    (classifyKeyword kw = some .fresh ↔ kw.contents = []) ∧
    (∀ (kws : List KeywordC) (accs : List Account)
        (settings : Option DailyLimitsSettings),
      (∃ c ∈ kw.contents, c.is_active = true ∧ contentExposed c = true) →
      ∀ r ∈ generateRecommendationsV2 kws accs settings, r.keyword ≠ kw) := by
  have memA : ∀ c, c ∈ kw.contents.filter (·.is_active) ↔
      c ∈ kw.contents ∧ c.is_active = true := fun c => List.mem_filter
  have posA : 0 < (kw.contents.filter (·.is_active)).length ↔
      ∃ c ∈ kw.contents, c.is_active = true := by
    rw [List.length_pos_iff_exists_mem]
    constructor
    · rintro ⟨c, hc⟩; exact ⟨c, ((memA c).mp hc).1, ((memA c).mp hc).2⟩
    · rintro ⟨c, hc, hact⟩; exact ⟨c, (memA c).mpr ⟨hc, hact⟩⟩
  have zeroA : (kw.contents.filter (·.is_active)).length = 0 ↔
      ∀ c ∈ kw.contents, c.is_active = false := by
    rw [List.length_eq_zero, List.filter_eq_nil_iff]
    constructor
    · intro h c hc; have := h c hc; simpa using this
    · intro h c hc; simp [h c hc]
  have zeroE : ((kw.contents.filter (·.is_active)).filter contentExposed).length = 0 ↔
      ∀ c ∈ kw.contents, c.is_active = true → contentExposed c = false := by
    rw [List.length_eq_zero, List.filter_eq_nil_iff]
    constructor
    · intro h c hc hact
      have := h c ((memA c).mpr ⟨hc, hact⟩); simpa using this
    · intro h c hc
      simp [h c ((memA c).mp hc).1 ((memA c).mp hc).2]
  have posI : 0 < (kw.contents.filter (fun c => !c.is_active)).length ↔
      ∃ c ∈ kw.contents, c.is_active = false := by
    rw [List.length_pos_iff_exists_mem]
    constructor
    · rintro ⟨c, hc⟩
      have := List.mem_filter.mp hc
      exact ⟨c, this.1, by simpa using this.2⟩
    · rintro ⟨c, hc, hact⟩
      exact ⟨c, List.mem_filter.mpr ⟨hc, by simp [hact]⟩⟩
  have heq : classifyKeyword kw =
      if 0 < (kw.contents.filter (·.is_active)).length ∧
          ((kw.contents.filter (·.is_active)).filter contentExposed).length = 0 then
        some .urgent
      else if (kw.contents.filter (·.is_active)).length = 0 ∧
          0 < (kw.contents.filter (fun c => !c.is_active)).length then
        some .recovery
      else if kw.contents.length = 0 then some .fresh
      else none := rfl
  refine ⟨?_, ?_, ?_, ?_⟩
  · rw [heq]
    by_cases h1 : 0 < (kw.contents.filter (·.is_active)).length ∧
        ((kw.contents.filter (·.is_active)).filter contentExposed).length = 0
    · rw [if_pos h1]
      exact ⟨fun _ => ⟨posA.mp h1.1, zeroE.mp h1.2⟩, fun _ => rfl⟩
    · rw [if_neg h1]
      constructor
      · intro h; exfalso; split_ifs at h <;> simp at h
      · rintro ⟨hex, hall⟩
        exact absurd ⟨posA.mpr hex, zeroE.mpr hall⟩ h1
  · rw [heq]
    by_cases h1 : 0 < (kw.contents.filter (·.is_active)).length ∧
        ((kw.contents.filter (·.is_active)).filter contentExposed).length = 0
    · rw [if_pos h1]
      constructor
      · intro h; exact absurd h (by simp)
      · rintro ⟨hall, hne⟩
        have := zeroA.mpr hall
        omega
    · rw [if_neg h1]
      by_cases h2 : (kw.contents.filter (·.is_active)).length = 0 ∧
          0 < (kw.contents.filter (fun c => !c.is_active)).length
      · rw [if_pos h2]
        refine ⟨fun _ => ⟨zeroA.mp h2.1, ?_⟩, fun _ => rfl⟩
        obtain ⟨c, hc, _⟩ := posI.mp h2.2
        intro hnil; rw [hnil] at hc; exact List.not_mem_nil c hc
      · rw [if_neg h2]
        constructor
        · intro h; exfalso; split_ifs at h; simp_all
        · rintro ⟨hall, hne⟩
          refine absurd ⟨zeroA.mpr hall, posI.mpr ?_⟩ h2
          obtain ⟨c, hc⟩ := List.exists_mem_of_ne_nil _ hne
          exact ⟨c, hc, hall c hc⟩
  · rw [heq]
    by_cases h1 : 0 < (kw.contents.filter (·.is_active)).length ∧
        ((kw.contents.filter (·.is_active)).filter contentExposed).length = 0
    · rw [if_pos h1]
      constructor
      · intro h; exact absurd h (by simp)
      · intro hnil
        exfalso
        have : kw.contents.filter (·.is_active) = [] := by rw [hnil]; rfl
        rw [this] at h1
        simp at h1
    · rw [if_neg h1]
      by_cases h2 : (kw.contents.filter (·.is_active)).length = 0 ∧
          0 < (kw.contents.filter (fun c => !c.is_active)).length
      · rw [if_pos h2]
        constructor
        · intro h; exact absurd h (by simp)
        · intro hnil
          exfalso
          have : kw.contents.filter (fun c => !c.is_active) = [] := by rw [hnil]; rfl
          rw [this] at h2
          simp at h2
      · rw [if_neg h2]
        by_cases h3 : kw.contents.length = 0
        · rw [if_pos h3]
          exact ⟨fun _ => List.length_eq_zero.mp h3, fun _ => rfl⟩
        · rw [if_neg h3]
          constructor
          · intro h; exact absurd h (by simp)
          · intro hnil
            exact absurd (by rw [hnil]; rfl) h3
  · intro kws accs settings hexp r hr
    intro hkw
    have h2 := (mem_generateRecommendationsV2 kws accs settings r hr).2
    rw [hkw] at h2
    rw [classifyKeyword_none_of_exposed kw hexp] at h2
    exact Option.noConfusion h2

/-- Witness for C3 at concrete inputs: a keyword whose single active
content is exposed on PC is classified `none` and never appears in the
generator's output. -/
theorem classifyKeyword_spec_witness :
    ∀ r ∈ generateRecommendationsV2
        [⟨7, 1000, "낮음", [⟨true, [⟨Device.PC, some 3, 0, true, 0⟩]⟩]⟩] [] none,
      r.keyword ≠ ⟨7, 1000, "낮음", [⟨true, [⟨Device.PC, some 3, 0, true, 0⟩]⟩]⟩ :=
  (classifyKeyword_spec ⟨7, 1000, "낮음", [⟨true, [⟨Device.PC, some 3, 0, true, 0⟩]⟩]⟩).2.2.2
    [⟨7, 1000, "낮음", [⟨true, [⟨Device.PC, some 3, 0, true, 0⟩]⟩]⟩] [] none
    ⟨⟨true, [⟨Device.PC, some 3, 0, true, 0⟩]⟩, by simp, by decide⟩

/-! ## Legacy (keyword-centric) recommendation generation
(`src/app/dashboard/recommendations/page.tsx`) -/

/-- A keyword row of the legacy recommendations page: its volume,
competition, published URL, associated account and SERP results. -/
structure KeywordL where
  id : Nat
  monthly_search_total : Int
  competition : String
  url : Option String
  account : Option Account
  serp_results : List SerpResult
deriving DecidableEq, Repr

/-- JavaScript truthiness of a nullable string (`null`, `undefined` and
`''` are falsy). -/
def strTruthy : Option String → Bool
  | none => false
  | some s => !(s == "")

/-- The status chain of the legacy `generateRecommendations` (lines
113-139): urgent when unexposed with a recent big rank drop, recovery
when unexposed but published (`kw.url` truthy), `fresh` (`'new'`) when
unpublished, else no recommendation. -/
def classifyKeywordL (kw : KeywordL) : Option RecStatus :=
  let pcSerp := kw.serp_results.find? (fun s => s.device == Device.PC)
  let moSerp := kw.serp_results.find? (fun s => s.device == Device.MO)
  let pcRank : Option Int := pcSerp.bind (·.rank)
  let moRank : Option Int := moSerp.bind (·.rank)
  let pcChange : Int := (pcSerp.map (·.rank_change)).getD 0
  let moChange : Int := (moSerp.map (·.rank_change)).getD 0
  let isUnexposed := pcRank.isNone && moRank.isNone
  let wasExposed := decide (pcChange < -10) || decide (moChange < -10)
  if isUnexposed && wasExposed then some .urgent
  else if isUnexposed && strTruthy kw.url then some .recovery
  else if !(strTruthy kw.url) then some .fresh
  else none

/-- `calcExpectedImpact` from the legacy recommendations page (lines
67-75): `round(exposureProb * (log10(volume+10), or 0.5 when volume ≤ 0)
* statusWeight * 100)` with status weight 2.0/1.5/1.0 for
urgent/recovery/new. -/
noncomputable def calcExpectedImpact (exposureProb : ℚ) (totalVolume : Int)
    (status : RecStatus) : Int :=
  let volumeValue : ℝ :=
    if 0 < totalVolume then Real.logb 10 ((totalVolume : ℝ) + 10) else 1/2
  let statusWeight : ℝ :=
    match status with
    | .urgent => 2
    | .recovery => 3/2
    | .fresh => 1
  ⌊(exposureProb : ℝ) * volumeValue * statusWeight * 100 + 1/2⌋

/-- A produced recommendation of the legacy page. -/
structure RecommendationL where
  keyword : KeywordL
  status : RecStatus
  recommendedAccount : Option Account
  expectedImpact : Int
  exposureProb : ℚ

/-- The legacy `generateRecommendations` (lines 106-163): classify every
keyword, attach exposure probability, expected impact and best account,
and sort by `expectedImpact` descending
(`(a, b) => b.expectedImpact - a.expectedImpact`). -/
noncomputable def generateRecommendationsL (kws : List KeywordL)
    (accs : List Account) (settings : Option DailyLimitsSettings) :
    List RecommendationL :=
  let recs := kws.filterMap (fun kw =>
    (classifyKeywordL kw).map (fun st =>
      let accountScore := (kw.account.map (·.blog_score)).getD 0
      let exposureProb := getExposureProb accountScore kw.competition settings
      let expectedImpact := calcExpectedImpact exposureProb kw.monthly_search_total st
      { keyword := kw
        status := st
        recommendedAccount := findBestAccount kw.competition kw.account accs st
        expectedImpact := expectedImpact
        exposureProb := exposureProb }))
  recs.mergeSort (fun a b => decide (b.expectedImpact ≤ a.expectedImpact))

/-- A stable sort by a descending integer key is pairwise descending in
that key. -/
theorem pairwise_mergeSort_key {α : Type} (f : α → Int) (l : List α) :
    (l.mergeSort (fun a b => decide (f b ≤ f a))).Pairwise
      (fun a b => f b ≤ f a) := by
  have h : (l.mergeSort (fun a b => decide (f b ≤ f a))).Pairwise
      (fun a b => decide (f b ≤ f a)) :=
    List.sorted_mergeSort
      (fun a b c h1 h2 => by simp only [decide_eq_true_eq] at *; omega)
      (fun a b => by simp only [Bool.or_eq_true, decide_eq_true_eq]; omega)
      l
  exact h.imp (by intro a b hb; simpa using hb)

/-- Two permutation-equal lists sorted descending by a key that is
pairwise distinct coincide. -/
theorem eq_of_perm_sorted_nodup {α : Type} (f : α → Int) (l₁ l₂ : List α)
    (hperm : List.Perm l₁ l₂)
    (h₁ : l₁.Pairwise (fun a b => f b ≤ f a))
    (h₂ : l₂.Pairwise (fun a b => f b ≤ f a))
    (hnd : (l₂.map f).Nodup) :
    l₁ = l₂ := by
  have hnd₁ : (l₁.map f).Nodup := ((hperm.map f).nodup_iff).mpr hnd
  have hne₁ : l₁.Pairwise (fun a b => f a ≠ f b) :=
    List.pairwise_map.mp hnd₁
  have hne₂ : l₂.Pairwise (fun a b => f a ≠ f b) :=
    List.pairwise_map.mp hnd
  have hstrict₁ : l₁.Pairwise (fun a b => f b < f a) :=
    (h₁.and hne₁).imp (fun h => lt_of_le_of_ne h.1 (Ne.symm h.2))
  have hstrict₂ : l₂.Pairwise (fun a b => f b < f a) :=
    (h₂.and hne₂).imp (fun h => lt_of_le_of_ne h.1 (Ne.symm h.2))
  haveI : IsAntisymm α (fun a b => f b < f a) :=
    ⟨fun a b hab hba => absurd hab (not_lt.mpr (le_of_lt hba))⟩
  exact List.eq_of_perm_of_sorted hperm hstrict₁ hstrict₂

/-- Every legacy recommendation's `expectedImpact` field is the
`calcExpectedImpact` of its own probability, volume and status. -/
theorem mem_generateRecommendationsL (kws : List KeywordL) (accs : List Account)
    (settings : Option DailyLimitsSettings) (r : RecommendationL)
    (hr : r ∈ generateRecommendationsL kws accs settings) :
    r.expectedImpact =
      calcExpectedImpact r.exposureProb r.keyword.monthly_search_total r.status := by
  unfold generateRecommendationsL at hr
  have hr' := (List.mergeSort_perm _ _).mem_iff.mp hr
  obtain ⟨kw, hkw, hmap⟩ := List.mem_filterMap.mp hr'
  rcases hcl : classifyKeywordL kw with _ | st
  · rw [hcl] at hmap; simp at hmap
  · rw [hcl] at hmap
    rw [Option.map_some'] at hmap
    have hmap' := Option.some.inj hmap
    subst hmap'
    rfl

/-- C8: the generator's output order.  The content-centric variant is
pairwise descending in `monthly_search_total`; re-running on identical
input yields an identical list; when the sort keys are pairwise distinct
any key-descending arrangement of the same recommendations coincides with
the output, so the order is fully determined by the key; the legacy
variant is pairwise descending in `expectedImpact`, and each output's
`expectedImpact` is `calcExpectedImpact` of its probability, volume and
status. -/
theorem generateRecommendations_sorted (kws : List KeywordC)
    (lkws : List KeywordL) (accs : List Account)
    (settings : Option DailyLimitsSettings) :
    (generateRecommendationsV2 kws accs settings).Pairwise
      (fun a b => b.keyword.monthly_search_total ≤ a.keyword.monthly_search_total) ∧
    (∀ kws' accs' settings', kws' = kws → accs' = accs → settings' = settings →
      generateRecommendationsV2 kws' accs' settings' =
        generateRecommendationsV2 kws accs settings) ∧
    (((generateRecommendationsV2 kws accs settings).map
        (fun r => r.keyword.monthly_search_total)).Nodup →
      ∀ l, List.Perm l (generateRecommendationsV2 kws accs settings) →
        l.Pairwise
          (fun a b => b.keyword.monthly_search_total ≤ a.keyword.monthly_search_total) →
        l = generateRecommendationsV2 kws accs settings) ∧
    (generateRecommendationsL lkws accs settings).Pairwise
      (fun a b => b.expectedImpact ≤ a.expectedImpact) ∧
    (∀ r ∈ generateRecommendationsL lkws accs settings,
      r.expectedImpact =
        calcExpectedImpact r.exposureProb r.keyword.monthly_search_total r.status) := by
  refine ⟨?_, ?_, ?_, ?_, ?_⟩
  · exact pairwise_mergeSort_key
      (fun r : RecommendationC => r.keyword.monthly_search_total) _
  · rintro kws' accs' settings' rfl rfl rfl
    rfl
  · intro hnd l hperm hsorted
    exact eq_of_perm_sorted_nodup
      (fun r : RecommendationC => r.keyword.monthly_search_total)
      l _ hperm hsorted
      (pairwise_mergeSort_key
        (fun r : RecommendationC => r.keyword.monthly_search_total) _) hnd
  · exact pairwise_mergeSort_key (fun r : RecommendationL => r.expectedImpact) _
  · exact fun r hr => mem_generateRecommendationsL lkws accs settings r hr

/-- Witness for C8 at concrete inputs: the empty keyword lists, where the
output is empty, re-runs coincide, and the unique sorted arrangement of
the empty output is itself. -/
theorem generateRecommendations_sorted_witness :
    ∀ l : List RecommendationC, List.Perm l (generateRecommendationsV2 [] [] none) →
      l.Pairwise
        (fun a b => b.keyword.monthly_search_total ≤ a.keyword.monthly_search_total) →
      l = generateRecommendationsV2 [] [] none :=
  (generateRecommendations_sorted [] [] [] none).2.2.1
    (by simp [generateRecommendationsV2])

/-! ## Blog score recalculation (`src/app/dashboard/accounts/page.tsx`) -/

/-- JavaScript `Math.round`: round half away from zero toward `+∞`,
`⌊x + 1/2⌋`. -/
def jsRound (x : ℚ) : Int := ⌊x + 1/2⌋

/-- A keyword as the accounts page consumes it for score recalculation:
its (runtime-nullable) `opportunity_score` and its SERP results. -/
structure KeywordB where
  opportunity_score : Option Int
  serp_results : List SerpResult
deriving DecidableEq, Repr

/-- An account row together with its linked keywords
(`accounts.select('*, keywords(*, serp_results(*))')`). -/
structure AccountB where
  id : Nat
  name : String
  keywords : List KeywordB
deriving DecidableEq, Repr

/-- `serp_results.sort((a, b) => b.captured_at - a.captured_at)`: newest
capture first, stable. -/
def serpSortDesc (rs : List SerpResult) : List SerpResult :=
  rs.mergeSort (fun a b => decide (b.captured_at ≤ a.captured_at))

/-- `latestSerp.find(s => s.device === d)?.rank ?? null`. -/
def latestRank (rs : List SerpResult) (d : Device) : Option Int :=
  ((serpSortDesc rs).find? (fun s => s.device == d)).bind (·.rank)

/-- The latest PC rank of a keyword. -/
def pcRankB (kw : KeywordB) : Option Int := latestRank kw.serp_results Device.PC

/-- The latest MO rank of a keyword. -/
def moRankB (kw : KeywordB) : Option Int := latestRank kw.serp_results Device.MO

/-- `Math.min(pcRank ?? 999, moRank ?? 999)`. -/
def bestRankB (kw : KeywordB) : Int :=
  min ((pcRankB kw).getD 999) ((moRankB kw).getD 999)

/-- `pcRank !== null || moRank !== null`: the keyword counts as exposed. -/
def exposedB (kw : KeywordB) : Bool :=
  (pcRankB kw).isSome || (moRankB kw).isSome

/-- `kw.opportunity_score || 50`: JavaScript `||` substitutes 50 for a
missing **or zero** opportunity score. -/
def oppOr50 (kw : KeywordB) : Int :=
  match kw.opportunity_score with
  | none => 50
  | some v => if v = 0 then 50 else v

/-- The three accumulators of the `keywords.forEach` loop of
`calcBlogScore`. -/
structure BlogAcc where
  exposedCount : Nat
  totalRankScore : Int
  totalQualityScore : Int
deriving DecidableEq, Repr

/-- One iteration of the `keywords.forEach` loop (lines 97-119): bump the
exposed count and add the rank score `max(0, 100 - (bestRank-1)*5)` when
the keyword is exposed (the rank score only when `bestRank < 999`), and
always add the quality score. -/
def stepKeyword (acc : BlogAcc) (kw : KeywordB) : BlogAcc :=
  let acc1 :=
    if exposedB kw then
      { acc with
        exposedCount := acc.exposedCount + 1
        totalRankScore :=
          if bestRankB kw < 999 then
            acc.totalRankScore + max 0 (100 - (bestRankB kw - 1) * 5)
          else acc.totalRankScore }
    else acc
  { acc1 with totalQualityScore := acc1.totalQualityScore + oppOr50 kw }

/-- `calcBlogScore` for one account (lines 89-136): skip accounts with no
keywords, otherwise store
`clamp(round(exposureRate*0.4 + avgRankScore*0.3 + avgQualityScore*0.3), 0, 100)`.
`none` models the `continue` (stored score unchanged). -/
def calcBlogScoreUpdate (a : AccountB) : Option Int :=
  let keywords := a.keywords
  if keywords.length = 0 then none
  else
    let s := keywords.foldl stepKeyword ⟨0, 0, 0⟩
    let exposureRate : ℚ :=
      if 0 < keywords.length then
        ((s.exposedCount : ℚ) / (keywords.length : ℚ)) * 100
      else 0
    let avgRankScore : ℚ :=
      if 0 < s.exposedCount then (s.totalRankScore : ℚ) / (s.exposedCount : ℚ)
      else 0
    let avgQualityScore : ℚ :=
      if 0 < keywords.length then (s.totalQualityScore : ℚ) / (keywords.length : ℚ)
      else 50
    let blogScore :=
      jsRound (exposureRate * (4/10) + avgRankScore * (3/10) + avgQualityScore * (3/10))
    some (min 100 (max 0 blogScore))

/-- The best rank of an exposed keyword with null treated as `+∞` (the
spec's `best_rank`; the unused all-null case is 0). -/
def bestRankTrue (kw : KeywordB) : Int :=
  match pcRankB kw, moRankB kw with
  | some p, some m => min p m
  | some p, none => p
  | none, some m => m
  | none, none => 0

/-- The spec's per-keyword rank score `max(0, 100 - (best_rank-1)*5)`. -/
def specRankPoints (kw : KeywordB) : Int :=
  max 0 (100 - (bestRankTrue kw - 1) * 5)

/-- Written from the claim's words, as amended: exposure rate, rank-score
average over exposed keywords, quality average with 50 substituted for an
absent-or-zero opportunity score, rounded and clamped to [0, 100]. -/
def specBlogScoreUpdate (a : AccountB) : Option Int :=
  if a.keywords = [] then none
  else
    let kws := a.keywords
    let exposed := kws.filter exposedB
    let exposure_rate : ℚ := ((exposed.length : ℚ) / (kws.length : ℚ)) * 100
    let rank_avg : ℚ :=
      if exposed.length = 0 then 0
      else (((exposed.map specRankPoints).sum : Int) : ℚ) / (exposed.length : ℚ)
    let quality : ℚ := (((kws.map oppOr50).sum : Int) : ℚ) / (kws.length : ℚ)
    some (min 100 (max 0
      (jsRound (exposure_rate * (4/10) + rank_avg * (3/10) + quality * (3/10)))))

/-- Written from the claim's words, exactly as stated: quality average
with 50 substituted only when the opportunity score is absent, and the
stored score equal to the un-clamped round. -/
def claimBlogScoreUpdate (a : AccountB) : Option Int :=
  if a.keywords = [] then none
  else
    let kws := a.keywords
    let exposed := kws.filter exposedB
    let exposure_rate : ℚ := ((exposed.length : ℚ) / (kws.length : ℚ)) * 100
    let rank_avg : ℚ :=
      if exposed.length = 0 then 0
      else (((exposed.map specRankPoints).sum : Int) : ℚ) / (exposed.length : ℚ)
    let quality : ℚ :=
      (((kws.map (fun kw => kw.opportunity_score.getD 50)).sum : Int) : ℚ) /
        (kws.length : ℚ)
    some (jsRound (exposure_rate * (4/10) + rank_avg * (3/10) + quality * (3/10)))

/-- For an exposed keyword, the loop's guarded rank-score contribution
equals the spec's `max(0, 100 - (best_rank-1)*5)`: capping the missing
device at 999 cannot change a contribution that is zero from rank 21 on. -/
theorem rankAdd_eq (kw : KeywordB) (h : exposedB kw = true) :
    (if bestRankB kw < 999 then max 0 (100 - (bestRankB kw - 1) * 5) else 0) =
      specRankPoints kw := by
  unfold exposedB at h
  unfold bestRankB specRankPoints bestRankTrue
  rcases hpc : pcRankB kw with _ | p <;> rcases hmo : moRankB kw with _ | m
  · rw [hpc, hmo] at h; simp at h
  · simp only [Option.getD_some, Option.getD_none]
    by_cases hlt : min (999 : Int) m < 999
    · rw [if_pos hlt]
      have : min (999 : Int) m = m := by omega
      rw [this]
    · rw [if_neg hlt]
      have : (999 : Int) ≤ m := by omega
      have : max 0 (100 - (m - 1) * 5) = 0 := by
        apply max_eq_left
        nlinarith
      omega
  · simp only [Option.getD_some, Option.getD_none]
    by_cases hlt : min p (999 : Int) < 999
    · rw [if_pos hlt]
      have : min p (999 : Int) = p := by omega
      rw [this]
    · rw [if_neg hlt]
      have : (999 : Int) ≤ p := by omega
      have : max 0 (100 - (p - 1) * 5) = 0 := by
        apply max_eq_left
        nlinarith
      omega
  · simp only [Option.getD_some]
    by_cases hlt : min p m < 999
    · rw [if_pos hlt]
    · rw [if_neg hlt]
      have h999 : (999 : Int) ≤ min p m := by omega
      have : max 0 (100 - (min p m - 1) * 5) = 0 := by
        apply max_eq_left
        nlinarith [min_le_left p m, min_le_right p m]
      omega

/-- The `forEach` fold computes the exposed count, the summed rank scores
over exposed keywords, and the summed quality scores. -/
theorem foldl_stepKeyword (kws : List KeywordB) (e : Nat) (r q : Int) :
    kws.foldl stepKeyword ⟨e, r, q⟩ =
      ⟨e + (kws.filter exposedB).length,
       r + ((kws.filter exposedB).map specRankPoints).sum,
       q + (kws.map oppOr50).sum⟩ := by
  induction kws generalizing e r q with
  | nil => simp
  | cons kw t ih =>
    rw [List.foldl_cons]
    by_cases hexp : exposedB kw
    · have hra := rankAdd_eq kw hexp
      have hstep : stepKeyword ⟨e, r, q⟩ kw =
          ⟨e + 1, r + specRankPoints kw, q + oppOr50 kw⟩ := by
        unfold stepKeyword
        rw [if_pos hexp]
        by_cases hlt : bestRankB kw < 999
        · rw [if_pos hlt] at hra ⊢
          rw [hra]
        · rw [if_neg hlt] at hra ⊢
          rw [← hra]
          simp
      rw [hstep, ih]
      rw [List.filter_cons_of_pos hexp]
      simp only [List.length_cons, List.map_cons, List.sum_cons, BlogAcc.mk.injEq]
      refine ⟨by omega, by omega, by omega⟩
    · have hstep : stepKeyword ⟨e, r, q⟩ kw = ⟨e, r, q + oppOr50 kw⟩ := by
        unfold stepKeyword
        rw [if_neg hexp]
      rw [hstep, ih]
      rw [List.filter_cons_of_neg hexp]
      simp only [List.map_cons, List.sum_cons, BlogAcc.mk.injEq]
      exact ⟨trivial, trivial, by omega⟩

/-- C2 (as amended): for every account the recalculation skips
zero-keyword accounts (stored score unchanged), otherwise stores
`round(exposure_rate*0.4 + rank_score_avg*0.3 + quality_score*0.3)`
clamped to [0,100] — where the rank-score average runs over exposed
keywords only and the quality average substitutes 50 for an
absent-or-zero opportunity score — and the stored result is always an
integer in [0,100]. -/
theorem calcBlogScoreUpdate_spec (a : AccountB) :
    calcBlogScoreUpdate a = specBlogScoreUpdate a ∧
    (a.keywords = [] → calcBlogScoreUpdate a = none) ∧
    (∀ s, calcBlogScoreUpdate a = some s → 0 ≤ s ∧ s ≤ 100) := by
  refine ⟨?_, ?_, ?_⟩
  · simp only [calcBlogScoreUpdate, specBlogScoreUpdate]
    by_cases hnil : a.keywords = []
    · rw [if_pos (by rw [hnil]; rfl), if_pos hnil]
    · have hlen : ¬ a.keywords.length = 0 := by
        intro h; exact hnil (List.length_eq_zero.mp h)
      rw [if_neg hlen, if_neg hnil, foldl_stepKeyword]
      have hpos : 0 < a.keywords.length := Nat.pos_of_ne_zero hlen
      simp only [Nat.zero_add, zero_add, if_pos hpos]
      by_cases hL : (a.keywords.filter exposedB).length = 0
      · rw [if_neg (by omega), if_pos hL]
      · rw [if_pos (by omega), if_neg hL]
  · intro hnil
    simp only [calcBlogScoreUpdate]
    rw [if_pos (by rw [hnil]; rfl)]
  · intro s hs
    simp only [calcBlogScoreUpdate] at hs
    by_cases hnil : a.keywords.length = 0
    · rw [if_pos hnil] at hs
      exact absurd hs (by simp)
    · rw [if_neg hnil] at hs
      have h := Option.some.inj hs
      omega

/-- Witness for C2 at concrete inputs: an account with no keywords is
skipped, and an account with one unexposed keyword of absent opportunity
score stores 15 — an integer within [0,100]. -/
theorem calcBlogScoreUpdate_spec_witness :
    calcBlogScoreUpdate ⟨9, "empty", []⟩ = none ∧
    (0 ≤ (15 : Int) ∧ (15 : Int) ≤ 100) := by
  constructor
  · exact (calcBlogScoreUpdate_spec ⟨9, "empty", []⟩).2.1 rfl
  · refine (calcBlogScoreUpdate_spec ⟨8, "one", [⟨none, []⟩]⟩).2.2 15 ?_
    have hne : pcRankB ⟨none, []⟩ = none ∧ moRankB ⟨none, []⟩ = none := by
      constructor <;> simp [pcRankB, moRankB, latestRank, serpSortDesc]
    have hexp : ¬ exposedB ⟨none, []⟩ = true := by
      simp [exposedB, hne.1, hne.2]
    simp only [calcBlogScoreUpdate, foldl_stepKeyword, List.filter_cons_of_neg hexp,
      List.filter_nil, List.map_cons, List.map_nil, List.sum_cons, List.sum_nil,
      oppOr50]
    norm_num [jsRound]

/-- Counterexample for C2 as stated: a keyword with a present but zero
`opportunity_score` is averaged as 50 by the code (`|| 50`), not 0 as the
claim's "50 when absent" formula gives, and an out-of-range opportunity
score is clamped by the code where the claim's plain `round` is not. -/
theorem calcBlogScore_claim_counterexample :
    calcBlogScoreUpdate ⟨1, "acc", [⟨some 0, []⟩]⟩ = some 15 ∧
    claimBlogScoreUpdate ⟨1, "acc", [⟨some 0, []⟩]⟩ = some 0 ∧
    calcBlogScoreUpdate ⟨2, "acc", [⟨some 1000, []⟩]⟩ = some 100 ∧
    claimBlogScoreUpdate ⟨2, "acc", [⟨some 1000, []⟩]⟩ = some 300 ∧
    (15 : Int) ≠ 0 ∧ (100 : Int) ≠ 300 := by
  have hne : ∀ os : Option Int, pcRankB ⟨os, []⟩ = none ∧ moRankB ⟨os, []⟩ = none := by
    intro os
    constructor <;> simp [pcRankB, moRankB, latestRank, serpSortDesc]
  have hexp : ∀ os : Option Int, ¬ exposedB ⟨os, []⟩ = true := by
    intro os
    simp [exposedB, (hne os).1, (hne os).2]
  refine ⟨?_, ?_, ?_, ?_, by norm_num, by norm_num⟩
  · simp only [calcBlogScoreUpdate, foldl_stepKeyword,
      List.filter_cons_of_neg (hexp (some 0)), List.filter_nil, List.map_cons,
      List.map_nil, List.sum_cons, List.sum_nil, oppOr50]
    norm_num [jsRound]
  · simp only [claimBlogScoreUpdate, List.filter_cons_of_neg (hexp (some 0)),
      List.filter_nil, List.map_cons, List.map_nil, List.sum_cons, List.sum_nil]
    norm_num [jsRound]
  · simp only [calcBlogScoreUpdate, foldl_stepKeyword,
      List.filter_cons_of_neg (hexp (some 1000)), List.filter_nil, List.map_cons,
      List.map_nil, List.sum_cons, List.sum_nil, oppOr50]
    norm_num [jsRound]
  · simp only [claimBlogScoreUpdate, List.filter_cons_of_neg (hexp (some 1000)),
      List.filter_nil, List.map_cons, List.map_nil, List.sum_cons, List.sum_nil]
    norm_num [jsRound]

/-! ## Blog-score formula settings (`BlogScoreFormulaEditor`,
`src/unnamed/part_001`) -/

/-- The `blog_score_formula` settings record: the three weights edited in
`BlogScoreFormulaEditor`. -/
structure BlogScoreFormula where
  exposure_weight : Int
  rank_weight : Int
  quality_weight : Int
deriving DecidableEq, Repr

/-- `total = exposure_weight + rank_weight + quality_weight` (lines
535-537 of the settings page). -/
def weightsTotal (f : BlogScoreFormula) : Int :=
  f.exposure_weight + f.rank_weight + f.quality_weight

/-- The save button is disabled unless the three weights sum to exactly
100 (`disabled={saving || total !== 100}`, line 618). -/
def formulaSaveBlocked (f : BlogScoreFormula) : Bool :=
  decide (weightsTotal f ≠ 100)

/-- Written from the claim's words: the recalculation the claim describes,
using the stored weights of the `blog_score_formula` record (as
percentages) instead of the fixed constants 0.4/0.3/0.3. -/
def weightedBlogScoreUpdate (f : BlogScoreFormula) (a : AccountB) : Option Int :=
  if a.keywords = [] then none
  else
    let kws := a.keywords
    let exposed := kws.filter exposedB
    let exposure_rate : ℚ := ((exposed.length : ℚ) / (kws.length : ℚ)) * 100
    let rank_avg : ℚ :=
      if exposed.length = 0 then 0
      else (((exposed.map specRankPoints).sum : Int) : ℚ) / (exposed.length : ℚ)
    let quality : ℚ := (((kws.map oppOr50).sum : Int) : ℚ) / (kws.length : ℚ)
    some (min 100 (max 0 (jsRound
      (exposure_rate * ((f.exposure_weight : ℚ) / 100) +
       rank_avg * ((f.rank_weight : ℚ) / 100) +
       quality * ((f.quality_weight : ℚ) / 100)))))

/-- C6: the settings editor does block saving weights that do not sum to
100 (50+30+30=110 is blocked, 100+0+0 is accepted), but the recalculation
`calcBlogScore` hardcodes 0.4/0.3/0.3 and never reads the stored record:
with stored weights {100,0,0} and an account holding one unexposed
keyword of opportunity score 50, the code stores 15 while the
stored-weights formula gives 0. -/
theorem blogScoreFormula_divergence :
    formulaSaveBlocked ⟨50, 30, 30⟩ = true ∧
    formulaSaveBlocked ⟨100, 0, 0⟩ = false ∧
    calcBlogScoreUpdate ⟨3, "acct", [⟨some 50, []⟩]⟩ = some 15 ∧
    weightedBlogScoreUpdate ⟨100, 0, 0⟩ ⟨3, "acct", [⟨some 50, []⟩]⟩ = some 0 ∧
    calcBlogScoreUpdate ⟨3, "acct", [⟨some 50, []⟩]⟩ ≠
      weightedBlogScoreUpdate ⟨100, 0, 0⟩ ⟨3, "acct", [⟨some 50, []⟩]⟩ := by
  have hne : pcRankB ⟨some 50, []⟩ = none ∧ moRankB ⟨some 50, []⟩ = none := by
    constructor <;> simp [pcRankB, moRankB, latestRank, serpSortDesc]
  have hexp : ¬ exposedB ⟨some 50, []⟩ = true := by
    simp [exposedB, hne.1, hne.2]
  have h3 : calcBlogScoreUpdate ⟨3, "acct", [⟨some 50, []⟩]⟩ = some 15 := by
    simp only [calcBlogScoreUpdate, foldl_stepKeyword, List.filter_cons_of_neg hexp,
      List.filter_nil, List.map_cons, List.map_nil, List.sum_cons, List.sum_nil,
      oppOr50]
    norm_num [jsRound]
  have h4 : weightedBlogScoreUpdate ⟨100, 0, 0⟩ ⟨3, "acct", [⟨some 50, []⟩]⟩ =
      some 0 := by
    simp only [weightedBlogScoreUpdate, List.filter_cons_of_neg hexp,
      List.filter_nil, List.map_cons, List.map_nil, List.sum_cons, List.sum_nil,
      oppOr50]
    norm_num [jsRound]
  refine ⟨by decide, by decide, h3, h4, ?_⟩
  rw [h3, h4]
  simp

/-! ## Account deletion guard (`handleDelete`,
`src/app/dashboard/accounts/page.tsx` lines 51-69) -/

/-- The outcome of `handleDelete`: an inline error naming the keyword
count (no delete issued), a cancelled confirm dialog, or a delete issued
to the database. -/
inductive DeleteAction : Type
  | blocked (name : String) (count : Nat)
  | cancelled
  | deleteIssued (id : Nat)
deriving DecidableEq, Repr

/-- `handleDelete`: look the account up in the loaded list; if it has
linked keywords, set the inline error naming the count and return before
any delete; otherwise ask for confirmation and delete the row. -/
def handleDelete (accounts : List AccountB) (target : AccountB)
    (confirmed : Bool) : DeleteAction :=
  match accounts.find? (fun a => a.id == target.id) with
  | some acc =>
    if 0 < acc.keywords.length then .blocked target.name acc.keywords.length
    else if confirmed then .deleteIssued target.id
    else .cancelled
  | none =>
    if confirmed then .deleteIssued target.id
    else .cancelled

/-- The effect of the returned action on the stored account rows: only a
`deleteIssued` removes a row. -/
def applyDelete (action : DeleteAction) (rows : List AccountB) : List AccountB :=
  match action with
  | .deleteIssued i => rows.filter (fun a => !(a.id == i))
  | _ => rows

/-- C10: an account found in the loaded list with at least one linked
keyword is never deleted: the operation reports an inline error naming
the keyword count, issues no delete, and leaves the rows unchanged; a
delete is only ever issued for the target's id and only when the looked-up
account has zero linked keywords. -/
theorem handleDelete_spec (accounts : List AccountB) (target : AccountB)
    (confirmed : Bool) :
    (∀ acc, accounts.find? (fun a => a.id == target.id) = some acc →
      acc.keywords ≠ [] →
      handleDelete accounts target confirmed = .blocked target.name acc.keywords.length ∧
      (∀ i, handleDelete accounts target confirmed ≠ .deleteIssued i) ∧
      applyDelete (handleDelete accounts target confirmed) accounts = accounts) ∧
    (∀ i, handleDelete accounts target confirmed = .deleteIssued i →
      i = target.id ∧
      ∀ acc, accounts.find? (fun a => a.id == target.id) = some acc →
        acc.keywords = []) := by
  constructor
  · intro acc hfind hne
    have hlen : 0 < acc.keywords.length :=
      List.length_pos.mpr hne
    have hbl : handleDelete accounts target confirmed =
        .blocked target.name acc.keywords.length := by
      unfold handleDelete
      rw [hfind]
      exact if_pos hlen
    refine ⟨hbl, ?_, ?_⟩
    · intro i h
      rw [hbl] at h
      exact DeleteAction.noConfusion h
    · rw [hbl]
      rfl
  · intro i h
    unfold handleDelete at h
    rcases hfind : accounts.find? (fun a => a.id == target.id) with _ | acc
    · rw [hfind] at h
      have h' : (if confirmed = true then DeleteAction.deleteIssued target.id
          else DeleteAction.cancelled) = DeleteAction.deleteIssued i := h
      constructor
      · by_cases hc : confirmed
        · rw [if_pos hc] at h'
          exact (DeleteAction.deleteIssued.inj h').symm
        · rw [if_neg hc] at h'
          exact absurd h' (by simp)
      · intro acc hfind'
        rw [hfind] at hfind'
        exact Option.noConfusion hfind'
    · rw [hfind] at h
      have h' : (if 0 < acc.keywords.length then
            DeleteAction.blocked target.name acc.keywords.length
          else if confirmed = true then DeleteAction.deleteIssued target.id
          else DeleteAction.cancelled) = DeleteAction.deleteIssued i := h
      by_cases hlen : 0 < acc.keywords.length
      · rw [if_pos hlen] at h'
        exact absurd h' (by simp)
      · rw [if_neg hlen] at h'
        constructor
        · by_cases hc : confirmed
          · rw [if_pos hc] at h'
            exact (DeleteAction.deleteIssued.inj h').symm
          · rw [if_neg hc] at h'
            exact absurd h' (by simp)
        · intro acc' hfind'
          rw [hfind] at hfind'
          have : acc = acc' := Option.some.inj hfind'
          subst this
          exact List.length_eq_zero.mp (by omega)

/-- Witness for C10 at concrete inputs: deleting an account with one
linked keyword is blocked with count 1 and leaves the rows unchanged. -/
theorem handleDelete_spec_witness :
    handleDelete [⟨5, "busy", [⟨none, []⟩]⟩] ⟨5, "busy", [⟨none, []⟩]⟩ true =
      .blocked "busy" 1 ∧
    applyDelete
      (handleDelete [⟨5, "busy", [⟨none, []⟩]⟩] ⟨5, "busy", [⟨none, []⟩]⟩ true)
      [⟨5, "busy", [⟨none, []⟩]⟩] = [⟨5, "busy", [⟨none, []⟩]⟩] := by
  have h := (handleDelete_spec [⟨5, "busy", [⟨none, []⟩]⟩]
    ⟨5, "busy", [⟨none, []⟩]⟩ true).1 ⟨5, "busy", [⟨none, []⟩]⟩ rfl (by simp)
  exact ⟨h.1, h.2.2⟩

/-! ## EC2 proxy route (`src/app/api/ec2/[...path]/route.ts`) -/

/-- The `ec2_api` settings value. -/
structure Ec2Config where
  base_url : String
  secret : String
deriving DecidableEq, Repr

/-- The outcome of the remote fetch plus `response.json()`: a status and a
JSON body, or a throw anywhere along the way. -/
inductive RemoteOutcome : Type
  | ok (status : Nat) (body : String)
  | thrown
deriving DecidableEq, Repr

/-- The request the proxy sends to the EC2 server: target URL, the
`X-API-Secret` header, and (for POST) the JSON body fields in order. -/
structure ProxyRequest where
  url : String
  secretHeader : Option String
  body : Option (List (String × String))
deriving DecidableEq, Repr

/-- The body of the proxy's own response: an `{error}` object or the
remote JSON passed through. -/
inductive ProxyBody : Type
  | errorMsg (msg : String)
  | json (body : String)
deriving DecidableEq, Repr

/-- The proxy's response: HTTP status and body. -/
structure ProxyResponse where
  status : Nat
  body : ProxyBody
deriving DecidableEq, Repr

/-- The GET request built at lines 31-36: the remote base URL joined with
the sub-path, with the shared secret as the `X-API-Secret` header. -/
def getRequest (path : List String) (cfg : Ec2Config) : ProxyRequest :=
  ⟨cfg.base_url ++ "/" ++ String.intercalate "/" path, some cfg.secret, none⟩

/-- The POST request built at lines 70-92: a failed inbound JSON parse
leaves an empty body (`let body = {}` survives the catch), and the spread
`{...body, secret}` appends the `secret` field last, overriding any
inbound `secret`. -/
def postRequest (path : List String) (cfg : Ec2Config)
    (inbound : Option (List (String × String))) : ProxyRequest :=
  ⟨cfg.base_url ++ "/" ++ String.intercalate "/" path, some cfg.secret,
    some (inbound.getD [] ++ [("secret", cfg.secret)])⟩

/-- `GET` from the proxy route (lines 7-45): 500 with an error body and no
remote request when the `ec2_api` settings value is absent; 500 with an
error body when the remote call throws; otherwise the remote JSON and
status verbatim.  The second component is the request actually sent
(`none` = no remote call). -/
def handleGET (path : List String) (config : Option Ec2Config)
    (remote : ProxyRequest → RemoteOutcome) :
    ProxyResponse × Option ProxyRequest :=
  match config with
  | none => (⟨500, .errorMsg "EC2 설정 없음"⟩, none)
  | some cfg =>
    match remote (getRequest path cfg) with
    | .thrown => (⟨500, .errorMsg "서버 연결 실패"⟩, some (getRequest path cfg))
    | .ok st body => (⟨st, .json body⟩, some (getRequest path cfg))

/-- `POST` from the proxy route (lines 47-101): as `handleGET`, with the
inbound body (`none` = the inbound JSON failed to parse) forwarded plus
the injected `secret` field. -/
def handlePOST (path : List String) (config : Option Ec2Config)
    (inbound : Option (List (String × String)))
    (remote : ProxyRequest → RemoteOutcome) :
    ProxyResponse × Option ProxyRequest :=
  match config with
  | none => (⟨500, .errorMsg "EC2 설정 없음"⟩, none)
  | some cfg =>
    match remote (postRequest path cfg inbound) with
    | .thrown =>
      (⟨500, .errorMsg "서버 연결 실패"⟩, some (postRequest path cfg inbound))
    | .ok st body => (⟨st, .json body⟩, some (postRequest path cfg inbound))

/-- The value a JSON object's key resolves to when fields are written in
order with later duplicates overriding earlier ones. -/
def lookupLast (key : String) (fields : List (String × String)) : Option String :=
  (fields.reverse.find? (fun kv => kv.1 == key)).map (·.2)

/-- C9: the proxy endpoint.  With no `ec2_api` record both methods return
500 with an error body and send nothing; a thrown remote call or body
parse returns 500 with an error body; otherwise the remote JSON body and
status are returned verbatim.  The secret rides along as the
`X-API-Secret` header and, for POST, as a final `secret` body field that
overrides any inbound one; an unparseable inbound POST body is treated as
empty, not as an error. -/
theorem proxyRoute_spec (path : List String) (cfg : Ec2Config)
    (inbound : Option (List (String × String)))
    (remote : ProxyRequest → RemoteOutcome) :
    (handleGET path none remote = (⟨500, .errorMsg "EC2 설정 없음"⟩, none) ∧
     handlePOST path none inbound remote = (⟨500, .errorMsg "EC2 설정 없음"⟩, none)) ∧
    (remote (getRequest path cfg) = .thrown →
      handleGET path (some cfg) remote =
        (⟨500, .errorMsg "서버 연결 실패"⟩, some (getRequest path cfg))) ∧
    (∀ st body, remote (getRequest path cfg) = .ok st body →
      handleGET path (some cfg) remote =
        (⟨st, .json body⟩, some (getRequest path cfg))) ∧
    (remote (postRequest path cfg inbound) = .thrown →
      handlePOST path (some cfg) inbound remote =
        (⟨500, .errorMsg "서버 연결 실패"⟩, some (postRequest path cfg inbound))) ∧
    (∀ st body, remote (postRequest path cfg inbound) = .ok st body →
      handlePOST path (some cfg) inbound remote =
        (⟨st, .json body⟩, some (postRequest path cfg inbound))) ∧
    (getRequest path cfg).secretHeader = some cfg.secret ∧
    (postRequest path cfg inbound).secretHeader = some cfg.secret ∧
    (∀ fields, lookupLast "secret"
        (((postRequest path cfg (some fields)).body).getD []) = some cfg.secret) ∧
    (postRequest path cfg none).body = some [("secret", cfg.secret)] := by
  have hGdef : handleGET path (some cfg) remote =
      (match remote (getRequest path cfg) with
       | RemoteOutcome.thrown =>
         (⟨500, ProxyBody.errorMsg "서버 연결 실패"⟩, some (getRequest path cfg))
       | RemoteOutcome.ok st body =>
         (⟨st, ProxyBody.json body⟩, some (getRequest path cfg))) := rfl
  have hPdef : handlePOST path (some cfg) inbound remote =
      (match remote (postRequest path cfg inbound) with
       | RemoteOutcome.thrown =>
         (⟨500, ProxyBody.errorMsg "서버 연결 실패"⟩, some (postRequest path cfg inbound))
       | RemoteOutcome.ok st body =>
         (⟨st, ProxyBody.json body⟩, some (postRequest path cfg inbound))) := rfl
  refine ⟨⟨rfl, rfl⟩, ?_, ?_, ?_, ?_, rfl, rfl, ?_, rfl⟩
  · intro h
    rw [hGdef, h]
  · intro st body h
    rw [hGdef, h]
  · intro h
    rw [hPdef, h]
  · intro st body h
    rw [hPdef, h]
  · intro fields
    simp [lookupLast, postRequest, List.reverse_append]

/-- Witness for C9 at concrete inputs: a healthy remote echoes status 200
and its JSON through the proxy, and a throwing remote yields a 500 error
response. -/
theorem proxyRoute_spec_witness :
    handleGET ["health"] (some ⟨"http://ec2", "s3cr3t"⟩) (fun _ => .ok 200 "ok-json") =
      (⟨200, .json "ok-json"⟩, some (getRequest ["health"] ⟨"http://ec2", "s3cr3t"⟩)) ∧
    handlePOST ["run"] (some ⟨"http://ec2", "s3cr3t"⟩) none (fun _ => .thrown) =
      (⟨500, .errorMsg "서버 연결 실패"⟩,
        some (postRequest ["run"] ⟨"http://ec2", "s3cr3t"⟩ none)) := by
  constructor
  · exact (proxyRoute_spec ["health"] ⟨"http://ec2", "s3cr3t"⟩ none
      (fun _ => .ok 200 "ok-json")).2.2.1 200 "ok-json" rfl
  · exact (proxyRoute_spec ["run"] ⟨"http://ec2", "s3cr3t"⟩ none
      (fun _ => .thrown)).2.2.2.1 rfl

/-! ## Keyword metric calculator (spec §4.3)

The per-keyword `opportunity_score` / `difficulty_score` computation is
not part of this repository's sources — the analysis runs on the external
crawler service, and only the stored result columns appear under `src` —
so it is modelled from the spec. -/

/-- Competition tier as the spec names it; a missing competition defaults
to unknown. -/
inductive Competition : Type
  | low
  | medium
  | high
  | unknown
deriving DecidableEq, Repr

/-- Modelled from the spec: the keyword metric calculator's volume score
(spec §4.3, code not under `src`):
`volume_score = min(40, log10(monthly_search_total + 10) * 10)`. -/
noncomputable def volume_score (v : Nat) : ℝ :=
  min 40 (Real.logb 10 ((v : ℝ) + 10) * 10)

/-- Modelled from the spec: the competition score table
{low:30, medium:20, high:10, unknown:15}. -/
def competition_score : Competition → ℝ
  | .low => 30
  | .medium => 20
  | .high => 10
  | .unknown => 15

/-- Modelled from the spec: the rank score — 30 when `best_rank ≤ 5`, 25
when `≤ 10`, 20 when `≤ 20`, else the 15 baseline (also for a null
rank). -/
def rank_score : Option Nat → ℝ
  | none => 15
  | some r => if r ≤ 5 then 30 else if r ≤ 10 then 25 else if r ≤ 20 then 20 else 15

/-- Modelled from the spec:
`opportunity_score = round(volume_score + competition_score + rank_score)`. -/
noncomputable def calc_opportunity (v : Nat) (c : Competition)
    (best : Option Nat) : Int :=
  ⌊volume_score v + competition_score c + rank_score best + 1/2⌋

/-- Modelled from the spec: the difficulty base table
{high:80, medium:50, low:20, unknown:50}. -/
def difficultyBase : Competition → Int
  | .high => 80
  | .medium => 50
  | .low => 20
  | .unknown => 50

/-- Modelled from the spec: `difficulty_score` is the base, minus 20 and
floored at 10 when `best_rank ≤ 10`. -/
def calc_difficulty (c : Competition) (best : Option Nat) : Int :=
  match best with
  | some r => if r ≤ 10 then max 10 (difficultyBase c - 20) else difficultyBase c
  | none => difficultyBase c

/-- C7: the metric calculation is a deterministic pure function of
(volume, competition, rank); `calc_opportunity(0, unknown, null) =
round(min(40, log10(10)*10) + 15 + 15) = 40`; the difficulty score is the
competition table value, minus 20 floored at 10 exactly when
`best_rank ≤ 10`. -/
theorem calc_opportunity_spec :
    calc_opportunity 0 .unknown none = 40 ∧
    (∀ (v₁ v₂ : Nat) (c₁ c₂ : Competition) (r₁ r₂ : Option Nat),
      v₁ = v₂ → c₁ = c₂ → r₁ = r₂ →
      calc_opportunity v₁ c₁ r₁ = calc_opportunity v₂ c₂ r₂ ∧
      calc_difficulty c₁ r₁ = calc_difficulty c₂ r₂) ∧
    (∀ (c : Competition) (r : Nat), r ≤ 10 →
      calc_difficulty c (some r) = max 10 (difficultyBase c - 20)) ∧
    (∀ (c : Competition) (r : Nat), 10 < r →
      calc_difficulty c (some r) = difficultyBase c) ∧
    (∀ c : Competition, calc_difficulty c none = difficultyBase c) := by
  refine ⟨?_, ?_, ?_, ?_, fun c => rfl⟩
  · have hlogb : Real.logb 10 (10 : ℝ) = 1 :=
      Real.logb_self_eq_one (by norm_num)
    have hvol : volume_score 0 = 10 := by
      unfold volume_score
      rw [show (((0 : Nat) : ℝ) + 10) = (10 : ℝ) by norm_num, hlogb]
      norm_num
    unfold calc_opportunity
    rw [hvol]
    show ⌊(10 : ℝ) + 15 + 15 + 1/2⌋ = 40
    norm_num
  · rintro v₁ v₂ c₁ c₂ r₁ r₂ rfl rfl rfl
    exact ⟨rfl, rfl⟩
  · intro c r hr
    show (if r ≤ 10 then max 10 (difficultyBase c - 20) else difficultyBase c) =
      max 10 (difficultyBase c - 20)
    rw [if_pos hr]
  · intro c r hr
    show (if r ≤ 10 then max 10 (difficultyBase c - 20) else difficultyBase c) =
      difficultyBase c
    rw [if_neg (by omega)]

/-- Witness for C7 at concrete inputs: equal inputs give equal outputs,
and rank 3 discounts the high-competition difficulty to 60. -/
theorem calc_opportunity_spec_witness :
    (calc_opportunity 5 .low (some 3) = calc_opportunity 5 .low (some 3) ∧
      calc_difficulty .low (some 3) = calc_difficulty .low (some 3)) ∧
    calc_difficulty .high (some 3) = max 10 (difficultyBase .high - 20) ∧
    calc_difficulty .high (some 11) = difficultyBase .high := by
  refine ⟨calc_opportunity_spec.2.1 5 5 .low .low (some 3) (some 3) rfl rfl rfl,
    calc_opportunity_spec.2.2.1 .high 3 (by norm_num),
    calc_opportunity_spec.2.2.2.1 .high 11 (by norm_num)⟩

end SerpTracker
